import Mathlib

/-
Verification development for the file-organizing program in `organize.py`.

The program has three stages over one target directory:
  1. `categorize_files_by_type`: group top-level files by extension, create a
     folder `EXT_<count>` per extension and move the files into it.
  2. `associate_files_with_sources`: for each extension, re-derive the type
     folder, then attribute each file inside to a bank from a registry by
     filename and content matching, moving matched files to bank subfolders.
  3. `update_subfolder_counts`: rename each bank subfolder to `<base>_<count>`.

Shallow embedding conventions:
  * The file system is modelled explicitly with the two-level shape the
    program produces: a `BaseDir` holds loose files and type folders; a
    `TypeFolder` holds loose files and bank subfolders; a `BankFolder`
    holds files.  Directory listings are modelled as snapshots taken when
    the corresponding Python loop starts.
  * File contents are modelled by `FileContent`: a parsed CSV table (the
    data rows pandas exposes, cells already as strings), extracted PDF page
    texts, unreadable content (any read raises), or other content.
  * Uncaught Python exceptions are modelled as `Except.error` with a string
    naming the exception; caught exceptions are handled at the catch site.
  * Python `re.search` is modelled by a small regex engine covering the
    pattern subset: literal characters, `.` (any character except newline),
    `*`, `+`, `?`, alternation `|` and groups `(...)`.  Patterns outside
    this subset (classes, escapes, counted repeats, anchors, lazy
    quantifiers) are treated as unparseable by the model; theorems about
    pattern matching therefore carry a pattern-validity hypothesis.
  * Python string `upper`/`lower` are modelled for ASCII via `Char.toUpper`
    and `Char.toLower` applied characterwise.
-/

deriving instance DecidableEq for Except

/-! ## Python string helpers -/

/-- Python `str.upper()` (ASCII fragment), characterwise. -/
def pyUpper (s : String) : String := ⟨s.data.map Char.toUpper⟩

/-- Python `str.lower()` (ASCII fragment), characterwise. -/
def pyLower (s : String) : String := ⟨s.data.map Char.toLower⟩

/-- Python `s[1:]`: drop the first character. -/
def pyDrop1 (s : String) : String := ⟨s.data.drop 1⟩

/-- Prefix test on character lists (needle is a prefix of hay). -/
def chPrefix : List Char → List Char → Bool
  | [], _ => true
  | _ :: _, [] => false
  | c :: cs, d :: ds => c = d && chPrefix cs ds

/-- Substring occurrence test on character lists. -/
def chContains (needle : List Char) : List Char → Bool
  | [] => needle.isEmpty
  | d :: ds => chPrefix needle (d :: ds) || chContains needle ds

/-- Python `needle in hay` for strings: literal substring containment. -/
def pyIn (needle hay : String) : Bool := chContains needle.data hay.data

/-- Index of the last `'.'` in a character list, if any. -/
def lastDotIdx (cs : List Char) : Option Nat :=
  (List.range cs.length).foldl
    (fun acc i => if cs.getD i ' ' = '.' then some i else acc) none

/-- `pathlib.PurePath.suffix` of a file name: the part of the final
component from its last dot, but only when that dot is neither the first
nor the last character; otherwise the empty string. -/
def pySuffix (name : String) : String :=
  let cs := name.data
  match lastDotIdx cs with
  | some i => if 0 < i ∧ i < cs.length - 1 then ⟨cs.drop i⟩ else ""
  | none => ""

/-- `pathlib.PurePath.stem`: the file name with `pySuffix` removed. -/
def pyStem (name : String) : String :=
  let cs := name.data
  match lastDotIdx cs with
  | some i => if 0 < i ∧ i < cs.length - 1 then ⟨cs.take i⟩ else name
  | none => name

/-! ## Regex engine modelling the subset of `re` the program can use

`re.search(pat, s)` succeeds iff some substring of `s` matches `pat`.
Matching is by Brzozowski derivatives; existence of a match is all the
program observes (the match object is only used for its truthiness). -/

inductive Regex where
  | bot : Regex
  | eps : Regex
  | char (c : Char) : Regex
  | dot : Regex
  | seq (a b : Regex) : Regex
  | alt (a b : Regex) : Regex
  | star (a : Regex) : Regex
  deriving DecidableEq

/-- Does the regex accept the empty string? -/
def Regex.nullable : Regex → Bool
  | .bot => false
  | .eps => true
  | .char _ => false
  | .dot => false
  | .seq a b => a.nullable && b.nullable
  | .alt a b => a.nullable || b.nullable
  | .star _ => true

/-- Brzozowski derivative with respect to one character.  Python `.`
matches any character except a newline (no DOTALL flag is used). -/
def Regex.deriv : Regex → Char → Regex
  | .bot, _ => .bot
  | .eps, _ => .bot
  | .char c, x => if x = c then .eps else .bot
  | .dot, x => if x = '\n' then .bot else .eps
  | .seq a b, x =>
      if a.nullable then .alt (.seq (a.deriv x) b) (b.deriv x)
      else .seq (a.deriv x) b
  | .alt a b, x => .alt (a.deriv x) (b.deriv x)
  | .star a, x => .seq (a.deriv x) (.star a)

/-- Does some prefix of the input match the regex? -/
def matchHere (r : Regex) : List Char → Bool
  | [] => r.nullable
  | c :: cs => r.nullable || matchHere (r.deriv c) cs

/-- Does the regex match starting at some position (unanchored search)? -/
def searchFrom (r : Regex) : List Char → Bool
  | [] => r.nullable
  | c :: cs => matchHere r (c :: cs) || searchFrom r cs

/-! Recursive-descent pattern parser for the supported subset, with fuel.
Patterns using unsupported constructs fail to parse and are treated as
outside the model (the validity hypotheses of the theorems exclude them). -/

/-- Characters that cannot start an atom in the supported subset.
`[`, `]`, `\`, `^`, `$`, `{`, `}` are rejected as unsupported rather than
given Python semantics. -/
def atomReject (c : Char) : Bool :=
  c = ')' || c = '|' || c = '*' || c = '+' || c = '?' ||
  c = '[' || c = ']' || c = '\\' || c = '^' || c = '$' ||
  c = '\x7b' || c = '\x7d'

mutual

def parseAlt : Nat → List Char → Option (Regex × List Char)
  | 0, _ => none
  | Nat.succ fuel, cs =>
    match parseSeq fuel cs with
    | none => none
    | some (r1, rest) =>
      match rest with
      | '|' :: rest2 =>
        match parseAlt fuel rest2 with
        | none => none
        | some (r2, rest3) => some (.alt r1 r2, rest3)
      | _ => some (r1, rest)

def parseSeq : Nat → List Char → Option (Regex × List Char)
  | 0, _ => none
  | Nat.succ fuel, cs =>
    match cs with
    | [] => some (.eps, [])
    | ')' :: _ => some (.eps, cs)
    | '|' :: _ => some (.eps, cs)
    | _ =>
      match parseRepeat fuel cs with
      | none => none
      | some (r1, rest) =>
        match parseSeq fuel rest with
        | none => none
        | some (r2, rest2) => some (.seq r1 r2, rest2)

def parseRepeat : Nat → List Char → Option (Regex × List Char)
  | 0, _ => none
  | Nat.succ fuel, cs =>
    match parseAtom fuel cs with
    | none => none
    | some (r, rest) =>
      match rest with
      | '*' :: rest2 => some (.star r, rest2)
      | '+' :: rest2 => some (.seq r (.star r), rest2)
      | '?' :: rest2 => some (.alt r .eps, rest2)
      | _ => some (r, rest)

def parseAtom : Nat → List Char → Option (Regex × List Char)
  | 0, _ => none
  | Nat.succ fuel, cs =>
    match cs with
    | [] => none
    | '(' :: rest =>
      match parseAlt fuel rest with
      | none => none
      | some (r, rest2) =>
        match rest2 with
        | ')' :: rest3 => some (r, rest3)
        | _ => none
    | '.' :: rest => some (.dot, rest)
    | c :: rest => if atomReject c then none else some (.char c, rest)

end

/-- Parse a pattern of the supported subset. -/
def Regex.parse (pat : String) : Option Regex :=
  match parseAlt (4 * pat.data.length + 4) pat.data with
  | some (r, []) => some r
  | _ => none

/-- `re.search(pat, s)` with uncaught `re.error` for unparseable patterns
(the program calls it outside any `try` when matching filenames). -/
def re_search (pat s : String) : Except String Bool :=
  match Regex.parse pat with
  | some r => .ok (searchFrom r s.data)
  | none => .error ("re.error: " ++ pat)

/-- `re.search` truthiness with exceptions squashed to `false`; this is the
semantics at call sites wrapped in `try` (the pandas `str.contains` check). -/
def reSearchB (pat s : String) : Bool :=
  match Regex.parse pat with
  | some r => searchFrom r s.data
  | none => false

/-! ## Data model -/

/-- One account record of the registry.  A missing `Account_ID` key is
modelled as the empty string, matching `account.get("Account_ID", "")`. -/
structure Account where
  account_ID : String
  account_Name : String
  deriving DecidableEq

/-- One bank record of the registry.  A missing `Bank_ID` key is modelled
as the empty string, matching `bank_data.get("Bank_ID", "")`. -/
structure BankData where
  bank_ID : String
  accounts : List Account
  deriving DecidableEq

/-- The registry `bank.json`: bank name to record, in insertion order
(Python dict iteration preserves insertion order). -/
abbrev Registry := List (String × BankData)

/-- Content of a file as the content readers see it.
`csv rows`: the data rows of `pd.read_csv` with every cell via `astype(str)`.
`pdf pages`: the per-page extracted text of `fitz.open`.
`unreadable`: any attempt to read raises (caught by the readers).
`other`: content that is neither (readers on it raise and are caught). -/
inductive FileContent where
  | csv (rows : List (List String)) : FileContent
  | pdf (pages : List String) : FileContent
  | unreadable : FileContent
  | other : FileContent
  deriving DecidableEq

/-- A regular file: its name and its content. -/
structure FSFile where
  name : String
  content : FileContent
  deriving DecidableEq

/-- A bank subfolder inside a type folder.  The program only ever moves
regular files into bank folders, so they are modelled as holding files. -/
structure BankFolder where
  name : String
  files : List FSFile
  deriving DecidableEq

/-- A folder directly under the base directory (type folders, plus any
pre-existing directories). -/
structure TypeFolder where
  name : String
  files : List FSFile
  subfolders : List BankFolder
  deriving DecidableEq

/-- The target directory: loose regular files and direct subdirectories. -/
structure BaseDir where
  files : List FSFile
  folders : List TypeFolder
  deriving DecidableEq

/-! ## Stage 1: `categorize_files_by_type` -/

/-- `file.suffix.lower()`: the grouping key of a file (keeps the dot). -/
def extKey (f : FSFile) : String := pyLower (pySuffix f.name)

/-- Append a file to the group of key `k`, creating the group at the end
if absent; models insertion into the `file_inventory` dict. -/
def addToInventory (inv : List (String × List FSFile)) (k : String) (f : FSFile) :
    List (String × List FSFile) :=
  match inv with
  | [] => [(k, [f])]
  | (k2, g) :: rest =>
    if k2 = k then (k2, g ++ [f]) :: rest else (k2, g) :: addToInventory rest k f

/-- The `file_inventory` dict after the first loop of
`categorize_files_by_type`: files grouped by `extKey` in first-occurrence
key order (only regular files are iterated; `base.files` is that listing). -/
def buildInventory (files : List FSFile) : List (String × List FSFile) :=
  files.foldl (fun inv f => addToInventory inv (extKey f) f) []

/-- The type-folder name `f"{ext[1:].upper()}_{len(files)}"` for a group. -/
def groupFolderName (p : String × List FSFile) : String :=
  pyUpper (pyDrop1 p.1) ++ "_" ++ toString p.2.length

/-- Look up a direct subdirectory by name. -/
def findFolder : List TypeFolder → String → Option TypeFolder
  | [], _ => none
  | t :: rest, name => if t.name == name then some t else findFolder rest name

/-- `create_folder`: create the folder if no directory of that name exists
(the existence test against same-named plain files is outside the model;
theorems about categorization exclude that case by hypothesis). -/
def create_folder (folders : List TypeFolder) (name : String) : List TypeFolder :=
  match findFolder folders name with
  | some _ => folders
  | none => folders ++ [⟨name, [], []⟩]

/-- `shutil.move(file, folder)`: raises `shutil.Error` when the folder
already holds an entry of the same name, else appends the file. -/
def moveIntoFolder (tf : TypeFolder) (f : FSFile) : Except String TypeFolder :=
  if tf.files.any (fun g => g.name == f.name) ||
      tf.subfolders.any (fun b => b.name == f.name) then
    .error ("shutil.Error: destination exists: " ++ f.name)
  else
    .ok ⟨tf.name, tf.files ++ [f], tf.subfolders⟩

/-- Move a whole group of files into a folder, in order. -/
def moveGroup (tf : TypeFolder) : List FSFile → Except String TypeFolder
  | [] => .ok tf
  | f :: rest =>
    match moveIntoFolder tf f with
    | .error e => .error e
    | .ok tf2 => moveGroup tf2 rest

/-- Replace the first folder with the given name. -/
def replaceFolder : List TypeFolder → String → TypeFolder → List TypeFolder
  | [], _, _ => []
  | t :: rest, name, tf =>
    if t.name == name then tf :: rest else t :: replaceFolder rest name tf

/-- The second loop of `categorize_files_by_type`: per group, create the
counted folder and move the group files into it. -/
def processGroups (folders : List TypeFolder) :
    List (String × List FSFile) → Except String (List TypeFolder)
  | [] => .ok folders
  | p :: rest =>
    let name := groupFolderName p
    let folders1 := create_folder folders name
    match findFolder folders1 name with
    | none => .error "unreachable: create_folder ensures existence"
    | some tf =>
      match moveGroup tf p.2 with
      | .error e => .error e
      | .ok tf2 => processGroups (replaceFolder folders1 name tf2) rest

/-- `categorize_files_by_type`: build the inventory from the snapshot of
regular files, create the per-extension folders and move every file into
its group folder; returns the new directory state and
`file_inventory.keys()` (the dotted, lowercased extensions in
first-occurrence order). -/
def categorize_files_by_type (base : BaseDir) :
    Except String (BaseDir × List String) :=
  let inv := buildInventory base.files
  match processGroups base.folders inv with
  | .error e => .error e
  | .ok folders2 => .ok (⟨[], folders2⟩, inv.map Prod.fst)

/-! ## Content checks -/

/-- `check_csv_for_account_id`: inside `try`, read the CSV and test every
cell of every data row with `str.contains(account_id)` (a regex search);
any exception, including `re.error` on a bad pattern and any read failure
(unreadable or non-CSV content), is caught and yields `False`. -/
def check_csv_for_account_id (content : FileContent) (account_id : String) : Bool :=
  match content with
  | .csv rows => rows.any (fun row => row.any (fun cell => reSearchB account_id cell))
  | _ => false

/-- `check_pdf_for_account_id`: inside `try`, test `account_id in text`
(literal substring) against each page text; any read failure is caught and
yields `False`. -/
def check_pdf_for_account_id (content : FileContent) (account_id : String) : Bool :=
  match content with
  | .pdf pages => pages.any (fun page => pyIn account_id page)
  | _ => false

/-! ## Stage 2: `associate_files_with_sources` -/

/-- The accounts loop over filenames: `re.search(account_id, file.name)`
per account, stopping at the first match; an invalid pattern raises here
(this call is not inside any `try`). -/
def accountsFilenameMatch (name : String) : List Account → Except String Bool
  | [] => .ok false
  | a :: rest =>
    match re_search a.account_ID name with
    | .error e => .error e
    | .ok true => .ok true
    | .ok false => accountsFilenameMatch name rest

/-- The content-check block: dispatch on `file.suffix.lower()` and test
each account of the current bank against the file content.  These checks
cannot raise (all exceptions are caught inside the checkers). -/
def contentMatches (f : FSFile) (accounts : List Account) : Bool :=
  if pyLower (pySuffix f.name) = ".csv" then
    accounts.any (fun a => check_csv_for_account_id f.content a.account_ID)
  else if pyLower (pySuffix f.name) = ".pdf" then
    accounts.any (fun a => check_pdf_for_account_id f.content a.account_ID)
  else false

/-- One bank-loop iteration for one file: bank name substring or bank-ID
regex on the filename, then account IDs on the filename, then account IDs
in the content.  `True` means the file was moved to this bank and the bank
loop breaks. -/
def bankMatchE (f : FSFile) (p : String × BankData) : Except String Bool :=
  if pyIn p.1 f.name then .ok true
  else
    match re_search p.2.bank_ID f.name with
    | .error e => .error e
    | .ok true => .ok true
    | .ok false =>
      match accountsFilenameMatch f.name p.2.accounts with
      | .error e => .error e
      | .ok true => .ok true
      | .ok false => .ok (contentMatches f p.2.accounts)

/-- The bank loop for one file: first bank (in registry order) whose
`bankMatchE` succeeds, if any. -/
def associateFile (json_data : Registry) (f : FSFile) : Except String (Option String) :=
  match json_data with
  | [] => .ok none
  | p :: rest =>
    match bankMatchE f p with
    | .error e => .error e
    | .ok true => .ok (some p.1)
    | .ok false => associateFile rest f

/-- `move_to_bank_folder`: create the bank subfolder on demand and move the
file into it (names inside one type folder are distinct, so the
`shutil.move` collision case cannot arise here). -/
def move_to_bank_folder (subs : List BankFolder) (bank : String) (f : FSFile) :
    List BankFolder :=
  match subs with
  | [] => [⟨bank, [f]⟩]
  | b :: rest =>
    if b.name == bank then ⟨b.name, b.files ++ [f]⟩ :: rest
    else b :: move_to_bank_folder rest bank f

/-- The file loop over a snapshot of the type folder listing: each file is
attributed and moved, or kept in place. -/
def associateFiles (json_data : Registry) (fs : List FSFile) (subs : List BankFolder) :
    Except String (List FSFile × List BankFolder) :=
  match fs with
  | [] => .ok ([], subs)
  | f :: rest =>
    match associateFile json_data f with
    | .error e => .error e
    | .ok (some bank) => associateFiles json_data rest (move_to_bank_folder subs bank f)
    | .ok none =>
      match associateFiles json_data rest subs with
      | .error e => .error e
      | .ok (ks, subs2) => .ok (f :: ks, subs2)

/-! ## Stage 3: `update_subfolder_counts` -/

/-- `subfolder.stem.split('_')[0]`: the stem truncated at its first
underscore. -/
def subBase (name : String) : String :=
  ⟨(pyStem name).data.takeWhile (fun c => ¬ c = '_')⟩

/-- The rename target `f"{subfolder.stem.split('_')[0]}_{count}"`. -/
def bankNewName (b : BankFolder) : String :=
  subBase b.name ++ "_" ++ toString b.files.length

/-- The rename loop over a snapshot of the subfolders.  `os.rename` to the
same path succeeds; renaming onto a different existing entry raises (POSIX
would silently replace an empty target directory, but bank subfolders are
never empty: they are created only by moving a file in). -/
def updateGo (files : List FSFile) :
    List BankFolder → List BankFolder → Except String (List BankFolder)
  | [], done => .ok done
  | sub :: rest, done =>
    let n := bankNewName sub
    if n = sub.name then updateGo files rest (done ++ [sub])
    else if files.any (fun f => f.name == n) ||
        (done ++ rest).any (fun b => b.name == n) then
      .error ("OSError: rename target exists: " ++ n)
    else updateGo files rest (done ++ [⟨n, sub.files⟩])

/-- `update_subfolder_counts`: rename every direct subdirectory of the type
folder to its stem-before-underscore plus its current entry count. -/
def update_subfolder_counts (tf : TypeFolder) : Except String TypeFolder :=
  match updateGo tf.files tf.subfolders [] with
  | .error e => .error e
  | .ok subs2 => .ok ⟨tf.name, tf.files, subs2⟩

/-- One iteration of the extension loop of `associate_files_with_sources`:
re-derive the type-folder name as
`f"{ext[1:].upper()}_{len(list((base_path / ext[1:].upper()).iterdir()))}"`.
Listing `base_path / EXT` raises `FileNotFoundError` when no such folder
exists; for the empty extension `base_path / ""` is `base_path` itself.
If the re-derived counted folder does not exist the extension is skipped;
otherwise its files are attributed and the subfolder counts updated. -/
def associateExt (json_data : Registry) (base : BaseDir) (file_type : String) :
    Except String BaseDir :=
  let extU := pyUpper (pyDrop1 file_type)
  let cntE : Except String Nat :=
    if extU = "" then .ok (base.files.length + base.folders.length)
    else
      match findFolder base.folders extU with
      | some t => .ok (t.files.length + t.subfolders.length)
      | none => .error ("FileNotFoundError: " ++ extU)
  match cntE with
  | .error e => .error e
  | .ok cnt =>
    match findFolder base.folders (extU ++ "_" ++ toString cnt) with
    | none => .ok base
    | some tf =>
      match associateFiles json_data tf.files tf.subfolders with
      | .error e => .error e
      | .ok (files2, subs2) =>
        match update_subfolder_counts ⟨tf.name, files2, subs2⟩ with
        | .error e => .error e
        | .ok tf2 =>
          .ok ⟨base.files, replaceFolder base.folders (extU ++ "_" ++ toString cnt) tf2⟩

/-- `associate_files_with_sources`: the extension loop. -/
def associate_files_with_sources (base : BaseDir) (file_types : List String)
    (json_data : Registry) : Except String BaseDir :=
  match file_types with
  | [] => .ok base
  | ft :: rest =>
    match associateExt json_data base ft with
    | .error e => .error e
    | .ok base2 => associate_files_with_sources base2 rest json_data

/-- The `main` pipeline after path validation and registry loading:
categorize, then associate (the final completion message only prints). -/
def main_pipeline (base : BaseDir) (json_data : Registry) : Except String BaseDir :=
  match categorize_files_by_type base with
  | .error e => .error e
  | .ok (base2, file_types) => associate_files_with_sources base2 file_types json_data

/-! ## Pattern validity and the spec-side attribution function -/

/-- All patterns of a bank record lie in the supported regex subset. -/
def validBank (p : String × BankData) : Bool :=
  (Regex.parse p.2.bank_ID).isSome &&
    p.2.accounts.all (fun a => (Regex.parse a.account_ID).isSome)

/-- All patterns of the registry lie in the supported regex subset. -/
def patternsValidB (json_data : Registry) : Bool := json_data.all validBank

/-- Spec-side description of when a file matches a bank, following the
spec's words: bank display name is a literal substring of the filename, or
the bank-ID pattern matches within the filename, or some account-ID
pattern matches within the filename, or some account ID is found in the
file content (CSV cells / PDF page text).  Used to compare the code's
bank-major loop against the spec's first-match description. -/
def bankMatchesSpec (f : FSFile) (p : String × BankData) : Bool :=
  pyIn p.1 f.name || reSearchB p.2.bank_ID f.name ||
    p.2.accounts.any (fun a => reSearchB a.account_ID f.name) ||
    contentMatches f p.2.accounts

/-- Spec-side attribution: the first bank, in registry order, that matches
the file by any strategy. -/
def firstMatchingBank (json_data : Registry) (f : FSFile) : Option String :=
  (json_data.find? (fun p => bankMatchesSpec f p)).map Prod.fst

/-! ## Matching lemmas -/

theorem searchFrom_eps (l : List Char) : searchFrom .eps l = true := by
  induction l with
  | nil => rfl
  | cons c cs ih => simp [searchFrom, matchHere, Regex.nullable]

theorem re_search_empty (s : String) : re_search "" s = .ok true := by
  have hp : Regex.parse "" = some .eps := rfl
  simp [re_search, hp, searchFrom_eps]

theorem re_search_ok (pat s : String) (h : (Regex.parse pat).isSome = true) :
    re_search pat s = .ok (reSearchB pat s) := by
  cases hp : Regex.parse pat with
  | some r => simp [re_search, reSearchB, hp]
  | none => rw [hp] at h; simp at h

theorem accountsFilenameMatch_ok (name : String) (accs : List Account)
    (h : accs.all (fun a => (Regex.parse a.account_ID).isSome) = true) :
    accountsFilenameMatch name accs =
      .ok (accs.any (fun a => reSearchB a.account_ID name)) := by
  induction accs with
  | nil => rfl
  | cons a rest ih =>
    simp only [List.all_cons, Bool.and_eq_true] at h
    obtain ⟨h1, h2⟩ := h
    rw [accountsFilenameMatch, re_search_ok _ _ h1]
    cases hm : reSearchB a.account_ID name
    · simp [hm, ih h2, List.any_cons]
    · simp [hm, List.any_cons]

theorem bankMatchE_ok (f : FSFile) (p : String × BankData)
    (h : validBank p = true) :
    bankMatchE f p = .ok (bankMatchesSpec f p) := by
  unfold validBank at h
  simp only [Bool.and_eq_true] at h
  obtain ⟨h1, h2⟩ := h
  unfold bankMatchE bankMatchesSpec
  cases hin : pyIn p.1 f.name
  · rw [re_search_ok _ _ h1]
    cases hb : reSearchB p.2.bank_ID f.name
    · rw [accountsFilenameMatch_ok _ _ h2]
      cases ha : p.2.accounts.any (fun a => reSearchB a.account_ID f.name)
      · simp [hin, hb, ha]
      · simp [hin, hb, ha]
    · simp [hin, hb]
  · simp [hin]

theorem associateFile_ok (json_data : Registry) (f : FSFile)
    (h : patternsValidB json_data = true) :
    associateFile json_data f = .ok (firstMatchingBank json_data f) := by
  induction json_data with
  | nil => rfl
  | cons p rest ih =>
    unfold patternsValidB at h
    simp only [List.all_cons, Bool.and_eq_true] at h
    obtain ⟨h1, h2⟩ := h
    unfold firstMatchingBank
    rw [associateFile, bankMatchE_ok f p h1]
    cases hb : bankMatchesSpec f p
    · rw [List.find?_cons_of_neg _ (by simp [hb])]
      simpa [firstMatchingBank] using ih h2
    · rw [List.find?_cons_of_pos _ hb]
      simp

theorem bankMatchE_emptyID (f : FSFile) (b : String) (bd : BankData)
    (h : bd.bank_ID = "") : bankMatchE f (b, bd) = .ok true := by
  unfold bankMatchE
  cases hin : pyIn b f.name
  · simp [hin, h, re_search_empty]
  · simp [hin]

/-! ## Inventory lemmas: `buildInventory` groups files exactly by `extKey` -/

theorem addToInventory_keys (inv : List (String × List FSFile)) (k : String) (f : FSFile) :
    (addToInventory inv k f).map Prod.fst =
      if k ∈ inv.map Prod.fst then inv.map Prod.fst else inv.map Prod.fst ++ [k] := by
  induction inv with
  | nil => simp [addToInventory]
  | cons p rest ih =>
    obtain ⟨k2, g⟩ := p
    by_cases hk : k2 = k
    · subst hk
      simp [addToInventory]
    · have hk2 : ¬ k = k2 := fun h => hk h.symm
      rw [addToInventory, if_neg hk]
      by_cases hm : k ∈ rest.map Prod.fst
      · simp [ih, hm, hk2, List.mem_cons]
      · simp [ih, hm, hk2, List.mem_cons]

theorem addToInventory_mem (inv : List (String × List FSFile)) (k : String) (f : FSFile)
    (hnd : (inv.map Prod.fst).Nodup) :
    ∀ p ∈ addToInventory inv k f,
      (p ∈ inv ∧ p.1 ≠ k) ∨
      (∃ g, (k, g) ∈ inv ∧ p = (k, g ++ [f])) ∨
      (k ∉ inv.map Prod.fst ∧ p = (k, [f])) := by
  induction inv with
  | nil =>
    intro p hp
    simp only [addToInventory, List.mem_singleton] at hp
    right; right
    exact ⟨by simp, hp⟩
  | cons q rest ih =>
    obtain ⟨k2, g2⟩ := q
    simp only [List.map_cons, List.nodup_cons] at hnd
    obtain ⟨hk2nin, hndrest⟩ := hnd
    intro p hp
    by_cases hk : k2 = k
    · subst hk
      rw [addToInventory, if_pos rfl] at hp
      rcases List.mem_cons.mp hp with hp1 | hp2
      · right; left
        exact ⟨g2, List.mem_cons_self _ _, hp1⟩
      · left
        refine ⟨List.mem_cons_of_mem _ hp2, fun hpk => ?_⟩
        apply hk2nin
        rw [← hpk]
        exact List.mem_map_of_mem Prod.fst hp2
    · rw [addToInventory, if_neg hk] at hp
      rcases List.mem_cons.mp hp with hp1 | hp2
      · subst hp1
        left
        exact ⟨List.mem_cons_self _ _, hk⟩
      · rcases ih hndrest p hp2 with h1 | h2 | h3
        · left
          exact ⟨List.mem_cons_of_mem _ h1.1, h1.2⟩
        · obtain ⟨g, hg, hpe⟩ := h2
          right; left
          exact ⟨g, List.mem_cons_of_mem _ hg, hpe⟩
        · obtain ⟨hknin, hpe⟩ := h3
          right; right
          refine ⟨?_, hpe⟩
          simp only [List.map_cons, List.mem_cons]
          rintro (h | h)
          · exact hk h.symm
          · exact hknin h

/-- Invariant tying an inventory to the list of files already processed. -/
def invProp (fs : List FSFile) (inv : List (String × List FSFile)) : Prop :=
  ((inv.map Prod.fst).Nodup) ∧
  (∀ p ∈ inv, p.2 = fs.filter (fun f => extKey f == p.1)) ∧
  (∀ f ∈ fs, extKey f ∈ inv.map Prod.fst) ∧
  (∀ p ∈ inv, p.2 ≠ [])

theorem invProp_step (fs : List FSFile) (inv : List (String × List FSFile)) (f : FSFile)
    (h : invProp fs inv) :
    invProp (fs ++ [f]) (addToInventory inv (extKey f) f) := by
  obtain ⟨ha, hb, hc, hd⟩ := h
  refine ⟨?_, ?_, ?_, ?_⟩
  · rw [addToInventory_keys]
    by_cases hm : extKey f ∈ inv.map Prod.fst
    · simpa [hm] using ha
    · rw [if_neg hm, List.nodup_append]
      refine ⟨ha, by simp, ?_⟩
      intro x hx hx2
      simp only [List.mem_singleton] at hx2
      subst hx2
      exact hm hx
  · intro p hp
    rcases addToInventory_mem inv (extKey f) f ha p hp with h1 | h2 | h3
    · have hsing : List.filter (fun g => extKey g == p.1) [f] = [] := by
        have hne : ¬ extKey f = p.1 := fun hh => h1.2 hh.symm
        simp [List.filter_cons, hne]
      rw [List.filter_append, hsing, List.append_nil]
      exact hb p h1.1
    · obtain ⟨g, hg, hpe⟩ := h2
      subst hpe
      have hsing : List.filter (fun g2 => extKey g2 == extKey f) [f] = [f] := by
        simp [List.filter]
      have hgeq : g = fs.filter (fun g2 => extKey g2 == extKey f) := by
        simpa using hb (extKey f, g) hg
      simp only [List.filter_append, hsing]
      rw [← hgeq]
    · obtain ⟨hknin, hpe⟩ := h3
      subst hpe
      have hfs : fs.filter (fun g => extKey g == extKey f) = [] := by
        rw [List.filter_eq_nil_iff]
        intro a hafs
        simp only [beq_iff_eq]
        intro heq
        exact hknin (heq ▸ hc a hafs)
      have hsing : List.filter (fun g2 => extKey g2 == extKey f) [f] = [f] := by
        simp [List.filter]
      simp only [List.filter_append, hfs, hsing, List.nil_append]
  · intro g hg
    rw [addToInventory_keys]
    rcases List.mem_append.mp hg with hgs | hgf
    · have hmem := hc g hgs
      by_cases hm : extKey f ∈ inv.map Prod.fst
      · rw [if_pos hm]; exact hmem
      · rw [if_neg hm]; exact List.mem_append_left _ hmem
    · simp only [List.mem_singleton] at hgf
      subst hgf
      by_cases hm : extKey g ∈ inv.map Prod.fst
      · rw [if_pos hm]; exact hm
      · rw [if_neg hm]; exact List.mem_append_right _ (by simp)
  · intro p hp
    rcases addToInventory_mem inv (extKey f) f ha p hp with h1 | h2 | h3
    · exact hd p h1.1
    · obtain ⟨g, _, hpe⟩ := h2
      simp [hpe]
    · simp [h3.2]

theorem invProp_foldl (fs : List FSFile) :
    ∀ (pre : List FSFile) (inv : List (String × List FSFile)), invProp pre inv →
      invProp (pre ++ fs) (fs.foldl (fun i g => addToInventory i (extKey g) g) inv) := by
  induction fs with
  | nil =>
    intro pre inv h
    simpa using h
  | cons f rest ih =>
    intro pre inv h
    have h2 := invProp_step pre inv f h
    have h3 := ih (pre ++ [f]) _ h2
    simpa [List.append_assoc] using h3

theorem buildInventory_invProp (fs : List FSFile) : invProp fs (buildInventory fs) := by
  have h0 : invProp [] [] := by
    refine ⟨by simp, by simp, by simp, by simp⟩
  have h := invProp_foldl fs [] [] h0
  simpa [buildInventory] using h

/-! ## Folder bookkeeping lemmas -/

theorem findFolder_none_iff (A : List TypeFolder) (n : String) :
    findFolder A n = none ↔ ∀ t ∈ A, t.name ≠ n := by
  induction A with
  | nil => simp [findFolder]
  | cons t rest ih =>
    by_cases ht : t.name = n
    · simp [findFolder, ht]
    · simp [findFolder, ht, ih]

theorem findFolder_append_none (A B : List TypeFolder) (n : String)
    (h : findFolder A n = none) : findFolder (A ++ B) n = findFolder B n := by
  induction A with
  | nil => simp
  | cons t rest ih =>
    by_cases ht : t.name = n
    · rw [findFolder, if_pos (by simp [ht])] at h
      exact absurd h (by simp)
    · rw [findFolder, if_neg (by simp [ht])] at h
      rw [List.cons_append, findFolder, if_neg (by simp [ht])]
      exact ih h

theorem findFolder_singleton (tf : TypeFolder) (n : String) (h : tf.name = n) :
    findFolder [tf] n = some tf := by
  rw [findFolder, if_pos (by simp [h])]

theorem findFolder_singleton_ne (tf : TypeFolder) (n : String) (h : tf.name ≠ n) :
    findFolder [tf] n = none := by
  rw [findFolder, if_neg (by simp [h])]
  rfl

theorem replaceFolder_append (A : List TypeFolder) (x newtf : TypeFolder)
    (h : findFolder A x.name = none) :
    replaceFolder (A ++ [x]) x.name newtf = A ++ [newtf] := by
  induction A with
  | nil => simp [replaceFolder]
  | cons t rest ih =>
    have hall := (findFolder_none_iff _ _).mp h
    have ht : ¬ (t.name == x.name) = true := by
      simp only [beq_iff_eq]
      exact hall t (List.mem_cons_self _ _)
    have hrest : findFolder rest x.name = none := by
      rw [findFolder_none_iff]
      intro u hu
      exact hall u (List.mem_cons_of_mem _ hu)
    rw [List.cons_append, replaceFolder, if_neg ht, ih hrest, List.cons_append]

theorem moveGroup_ok (g : List FSFile) :
    ∀ (acc : List FSFile) (n : String),
    (∀ x ∈ g, ∀ y ∈ acc, x.name ≠ y.name) →
    ((g.map (fun f => f.name)).Nodup) →
    moveGroup ⟨n, acc, []⟩ g = .ok ⟨n, acc ++ g, []⟩ := by
  induction g with
  | nil =>
    intro acc n _ _
    simp [moveGroup]
  | cons f rest ih =>
    intro acc n hdis hnd
    simp only [List.map_cons, List.nodup_cons] at hnd
    obtain ⟨hfnin, hnd2⟩ := hnd
    have hnotin : acc.any (fun y => y.name == f.name) = false := by
      rw [List.any_eq_false]
      intro y hy
      simp only [beq_iff_eq]
      exact fun hh => (hdis f (List.mem_cons_self _ _) y hy) hh.symm
    have hmove : moveIntoFolder ⟨n, acc, []⟩ f = .ok ⟨n, acc ++ [f], []⟩ := by
      rw [moveIntoFolder]
      simp [hnotin]
    have hdis2 : ∀ x ∈ rest, ∀ y ∈ acc ++ [f], x.name ≠ y.name := by
      intro x hx y hy
      rcases List.mem_append.mp hy with hya | hyf
      · exact hdis x (List.mem_cons_of_mem _ hx) y hya
      · simp only [List.mem_singleton] at hyf
        subst hyf
        intro hh
        exact hfnin (hh ▸ List.mem_map_of_mem (fun f2 => f2.name) hx)
    have hstep : moveGroup ⟨n, acc, []⟩ (f :: rest) = moveGroup ⟨n, acc ++ [f], []⟩ rest := by
      rw [moveGroup, hmove]
    rw [hstep, ih (acc ++ [f]) n hdis2 hnd2]
    simp

theorem processGroups_ok (inv : List (String × List FSFile)) :
    ∀ folders : List TypeFolder,
    (∀ p ∈ inv, findFolder folders (groupFolderName p) = none) →
    ((inv.map groupFolderName).Nodup) →
    (∀ p ∈ inv, (p.2.map (fun f => f.name)).Nodup) →
    processGroups folders inv =
      .ok (folders ++ inv.map (fun p => ⟨groupFolderName p, p.2, []⟩)) := by
  induction inv with
  | nil =>
    intro folders _ _ _
    simp [processGroups]
  | cons p rest ih =>
    intro folders hfresh hinj hfiles
    simp only [List.map_cons, List.nodup_cons] at hinj
    obtain ⟨hpnin, hinj2⟩ := hinj
    have hn : findFolder folders (groupFolderName p) = none :=
      hfresh p (List.mem_cons_self _ _)
    have h1 : create_folder folders (groupFolderName p) =
        folders ++ [⟨groupFolderName p, [], []⟩] := by
      rw [create_folder, hn]
    have h2 : findFolder (folders ++ [⟨groupFolderName p, [], []⟩]) (groupFolderName p) =
        some ⟨groupFolderName p, [], []⟩ := by
      rw [findFolder_append_none _ _ _ hn, findFolder_singleton _ _ rfl]
    have h3 : moveGroup ⟨groupFolderName p, [], []⟩ p.2 = .ok ⟨groupFolderName p, p.2, []⟩ := by
      have h := moveGroup_ok p.2 [] (groupFolderName p)
        (by intro x hx y hy; simp at hy) (hfiles p (List.mem_cons_self _ _))
      simpa using h
    have h4 : replaceFolder (folders ++ [⟨groupFolderName p, [], []⟩]) (groupFolderName p)
        ⟨groupFolderName p, p.2, []⟩ = folders ++ [⟨groupFolderName p, p.2, []⟩] :=
      replaceFolder_append folders ⟨groupFolderName p, [], []⟩ ⟨groupFolderName p, p.2, []⟩ hn
    have hfresh2 : ∀ q ∈ rest,
        findFolder (folders ++ [⟨groupFolderName p, p.2, []⟩]) (groupFolderName q) = none := by
      intro q hq
      rw [findFolder_append_none _ _ _ (hfresh q (List.mem_cons_of_mem _ hq))]
      refine findFolder_singleton_ne _ _ ?_
      intro hh
      have hh2 : groupFolderName p = groupFolderName q := hh
      apply hpnin
      rw [hh2]
      exact List.mem_map_of_mem groupFolderName hq
    have hstep : processGroups folders (p :: rest) =
        processGroups (folders ++ [⟨groupFolderName p, p.2, []⟩]) rest := by
      rw [processGroups, h1, h2]
      simp only [h3, h4]
    rw [hstep]
    rw [ih _ hfresh2 hinj2 (fun q hq => hfiles q (List.mem_cons_of_mem _ hq))]
    simp

/-- Characterization of a successful categorization run: under a fresh
directory (no pre-existing folder is named like a generated type folder,
distinct file names, and — for faithfulness of the model, in which plain
files cannot shadow a folder path — pairwise-distinct generated names),
every group gets a fresh counted folder holding exactly its files. -/
theorem categorize_ok (base : BaseDir)
    (hnodup : ((base.files.map (fun f => f.name)).Nodup))
    (hfresh : ∀ p ∈ buildInventory base.files,
      findFolder base.folders (groupFolderName p) = none)
    (hinj : (((buildInventory base.files).map groupFolderName).Nodup)) :
    categorize_files_by_type base =
      .ok (⟨[], base.folders ++
          (buildInventory base.files).map (fun p => ⟨groupFolderName p, p.2, []⟩)⟩,
        (buildInventory base.files).map Prod.fst) := by
  have hfiles : ∀ p ∈ buildInventory base.files, ((p.2.map (fun f => f.name)).Nodup) := by
    intro p hp
    have hb := (buildInventory_invProp base.files).2.1 p hp
    rw [hb]
    exact hnodup.sublist (List.Sublist.map _ (List.filter_sublist _))
  simp only [categorize_files_by_type]
  rw [processGroups_ok _ _ hfresh hinj hfiles]

/-! ## Rename-loop lemma -/

theorem updateGo_mem (files : List FSFile) (subs : List BankFolder) :
    ∀ (done res : List BankFolder), updateGo files subs done = .ok res →
    ∀ b2 ∈ res, b2 ∈ done ∨ ∃ b ∈ subs, b2.files = b.files ∧ b2.name = bankNewName b := by
  induction subs with
  | nil =>
    intro done res h b2 hb2
    simp only [updateGo, Except.ok.injEq] at h
    subst h
    exact Or.inl hb2
  | cons sub rest ih =>
    intro done res h b2 hb2
    simp only [updateGo] at h
    by_cases hn : bankNewName sub = sub.name
    · rw [if_pos hn] at h
      rcases ih (done ++ [sub]) res h b2 hb2 with hd | hex
      · rcases List.mem_append.mp hd with hd1 | hd2
        · exact Or.inl hd1
        · simp only [List.mem_singleton] at hd2
          refine Or.inr ⟨sub, List.mem_cons_self _ _, by rw [hd2], ?_⟩
          rw [hd2]
          exact hn.symm
      · obtain ⟨b, hbm, hbf, hbn⟩ := hex
        exact Or.inr ⟨b, List.mem_cons_of_mem _ hbm, hbf, hbn⟩
    · rw [if_neg hn] at h
      by_cases hcol : (files.any (fun f => f.name == bankNewName sub) ||
          (done ++ rest).any (fun b => b.name == bankNewName sub)) = true
      · rw [if_pos hcol] at h
        exact absurd h (by simp)
      · rw [if_neg hcol] at h
        rcases ih (done ++ [⟨bankNewName sub, sub.files⟩]) res h b2 hb2 with hd | hex
        · rcases List.mem_append.mp hd with hd1 | hd2
          · exact Or.inl hd1
          · simp only [List.mem_singleton] at hd2
            subst hd2
            exact Or.inr ⟨sub, List.mem_cons_self _ _, rfl, rfl⟩
        · obtain ⟨b, hbm, hbf, hbn⟩ := hex
          exact Or.inr ⟨b, List.mem_cons_of_mem _ hbm, hbf, hbn⟩

/-! ## Claims -/

/-- C5: content matching semantics differ by file type: for a CSV file an
account matches when the account ID, used as a search pattern, is found in
the string representation of some cell of some row; for a PDF file an
account matches when the raw account ID is a literal substring (not a
regex match) of the extracted text of some page.  The final conjuncts
separate the two semantics on the pattern `9.88` (regex dot versus literal
dot) at concrete inputs. -/
theorem C5_content_match_semantics :
    (∀ (rows : List (List String)) (pat : String),
      check_csv_for_account_id (.csv rows) pat = true ↔
        ∃ row ∈ rows, ∃ cell ∈ row, reSearchB pat cell = true) ∧
    (∀ (pages : List String) (pat : String),
      check_pdf_for_account_id (.pdf pages) pat = true ↔
        ∃ page ∈ pages, pyIn pat page = true) ∧
    check_csv_for_account_id (.csv [["AC9X88"]]) "9.88" = true ∧
    check_pdf_for_account_id (.pdf ["AC9X88"]) "9.88" = false ∧
    check_pdf_for_account_id (.pdf ["AC9.88"]) "9.88" = true ∧
    check_csv_for_account_id (.csv [["AC9.88"]]) "9.88" = true := by
  refine ⟨?_, ?_, by decide, by decide, by decide, by decide⟩
  · intro rows pat
    simp [check_csv_for_account_id, List.any_eq_true]
  · intro pages pat
    simp [check_pdf_for_account_id, List.any_eq_true]

/-- C6: when reading a file's content raises (modelled by `unreadable`
content), the error is caught and the check reports a non-match, the
content-check block reports no match for any account, and association
continues normally (it returns `.ok` of the spec-side first-match
attribution instead of propagating an error). -/
theorem C6_read_errors_treated_as_nonmatch :
    (∀ pat : String, check_csv_for_account_id .unreadable pat = false) ∧
    (∀ pat : String, check_pdf_for_account_id .unreadable pat = false) ∧
    (∀ (n : String) (accs : List Account), contentMatches ⟨n, .unreadable⟩ accs = false) ∧
    (∀ (json_data : Registry) (n : String), patternsValidB json_data = true →
      associateFile json_data ⟨n, .unreadable⟩ =
        .ok (firstMatchingBank json_data ⟨n, .unreadable⟩)) := by
  refine ⟨fun pat => rfl, fun pat => rfl, ?_, ?_⟩
  · intro n accs
    simp [contentMatches, check_csv_for_account_id, check_pdf_for_account_id]
  · intro json_data n h
    exact associateFile_ok json_data ⟨n, .unreadable⟩ h

/-- C6 witness: a registry with valid patterns and an unreadable CSV file;
the hypotheses of `C6_read_errors_treated_as_nonmatch` hold by evaluation. -/
theorem C6_witness :
    associateFile [("Chase", ⟨"CHK1", [⟨"9988", "Savings"⟩]⟩)] ⟨"statement.csv", .unreadable⟩ =
      .ok (firstMatchingBank [("Chase", ⟨"CHK1", [⟨"9988", "Savings"⟩]⟩)]
        ⟨"statement.csv", .unreadable⟩) :=
  C6_read_errors_treated_as_nonmatch.2.2.2 _ _ (by decide)

/-- C7 counterexample: the claim promises renaming to the original base
name before the first underscore, but the code first strips the pathlib
dot-suffix (`stem`): a bank subfolder named `St.George` with one file is
renamed to `St_1`, not `St.George_1`. -/
theorem C7_counterexample :
    update_subfolder_counts ⟨"CSV_1", [], [⟨"St.George", [⟨"a.csv", .other⟩]⟩]⟩ =
      .ok ⟨"CSV_1", [], [⟨"St_1", [⟨"a.csv", .other⟩]⟩]⟩ ∧
    ("St_1" : String) ≠ "St.George_1" :=
  ⟨by decide, by decide⟩

/-- C7 amended: after a successful subfolder-count update, every direct
subdirectory of the type folder is named by the part of its original
pathlib stem (name with any final dot-suffix removed) before the first
underscore, followed by an underscore and the number of entries currently
inside it; files directly in the type folder are untouched. -/
theorem C7_amended (tf tf2 : TypeFolder)
    (h : update_subfolder_counts tf = .ok tf2) :
    tf2.name = tf.name ∧ tf2.files = tf.files ∧
    ∀ b2 ∈ tf2.subfolders, ∃ b ∈ tf.subfolders,
      b2.files = b.files ∧
      b2.name = subBase b.name ++ "_" ++ toString b.files.length := by
  rw [update_subfolder_counts] at h
  cases hres : updateGo tf.files tf.subfolders [] with
  | error e =>
    rw [hres] at h
    exact absurd h (by simp)
  | ok subs2 =>
    rw [hres] at h
    simp only [Except.ok.injEq] at h
    subst h
    refine ⟨rfl, rfl, ?_⟩
    intro b2 hb2
    rcases updateGo_mem tf.files tf.subfolders [] subs2 hres b2 hb2 with hd | hex
    · exact absurd hd (by simp)
    · exact hex

/-- C7 witness: a concrete successful update run, with the conclusion of
`C7_amended` instantiated at it. -/
theorem C7_witness :
    update_subfolder_counts ⟨"CSV_2", [], [⟨"Chase", [⟨"s.csv", .other⟩]⟩]⟩ =
      .ok ⟨"CSV_2", [], [⟨"Chase_1", [⟨"s.csv", .other⟩]⟩]⟩ ∧
    (((⟨"CSV_2", [], [⟨"Chase_1", [⟨"s.csv", .other⟩]⟩]⟩ : TypeFolder).name =
        (⟨"CSV_2", [], [⟨"Chase", [⟨"s.csv", .other⟩]⟩]⟩ : TypeFolder).name) ∧
      ((⟨"CSV_2", [], [⟨"Chase_1", [⟨"s.csv", .other⟩]⟩]⟩ : TypeFolder).files =
        (⟨"CSV_2", [], [⟨"Chase", [⟨"s.csv", .other⟩]⟩]⟩ : TypeFolder).files) ∧
      ∀ b2 ∈ (⟨"CSV_2", [], [⟨"Chase_1", [⟨"s.csv", .other⟩]⟩]⟩ : TypeFolder).subfolders,
        ∃ b ∈ (⟨"CSV_2", [], [⟨"Chase", [⟨"s.csv", .other⟩]⟩]⟩ : TypeFolder).subfolders,
          b2.files = b.files ∧
          b2.name = subBase b.name ++ "_" ++ toString b.files.length) :=
  ⟨by decide, C7_amended _ _ (by decide)⟩

/-- C9 counterexample: with registry `[Alpha (ID X9), Beta (ID empty)]`,
the file `Alpha_1.csv` is attributed to `Alpha` (its name contains the
bank name), not to `Beta`, the first bank with an empty `Bank_ID`; so an
empty-ID bank does not capture every file. -/
theorem C9_counterexample :
    associateFile [("Alpha", ⟨"X9", []⟩), ("Beta", ⟨"", []⟩)] ⟨"Alpha_1.csv", .other⟩ =
      .ok (some "Alpha") ∧
    ("Alpha" : String) ≠ "Beta" :=
  ⟨by decide, by decide⟩

/-- C9 amended: a bank record with a missing or empty `Bank_ID` captures,
by the filename bank check (the empty pattern search succeeds on every
filename), every file that no earlier bank in registry order matches;
such files are attributed to the first such bank regardless of their name
or content. -/
theorem C9_amended (pre post : Registry) (b : String) (bd : BankData) (f : FSFile)
    (hid : bd.bank_ID = "")
    (hpre : ∀ p ∈ pre, bankMatchE f p = .ok false) :
    associateFile (pre ++ (b, bd) :: post) f = .ok (some b) := by
  induction pre with
  | nil =>
    rw [List.nil_append, associateFile, bankMatchE_emptyID f b bd hid]
  | cons p rest ih =>
    rw [List.cons_append, associateFile, hpre p (List.mem_cons_self _ _)]
    exact ih (fun q hq => hpre q (List.mem_cons_of_mem _ hq))

/-- C9 witness: `Beta` has an empty `Bank_ID` and the earlier bank `Alpha`
does not match the file `doc.csv`, so the file goes to `Beta`. -/
theorem C9_witness :
    associateFile ([("Alpha", ⟨"ZZZ", []⟩)] ++ ("Beta", ⟨"", []⟩) :: []) ⟨"doc.csv", .other⟩ =
      .ok (some "Beta") :=
  C9_amended [("Alpha", ⟨"ZZZ", []⟩)] [] "Beta" ⟨"", []⟩ ⟨"doc.csv", .other⟩ rfl (by decide)

/-- C3: attribution of a file is bank-major with first-match-wins: the
bank loop runs all strategies of one bank (bank name or ID on the
filename, account IDs on the filename, account IDs in content) before the
next bank, and the result equals the first bank in registry order that
matches by any strategy (`firstMatchingBank`); on a match the file-loop
step moves the file into that bank's subfolder and keeps nothing else of
it, and an unmatched file stays in place. -/
theorem C3_bank_major_first_match (json_data : Registry) (f : FSFile)
    (h : patternsValidB json_data = true) :
    associateFile json_data f = .ok (firstMatchingBank json_data f) ∧
    ∀ subs : List BankFolder,
      associateFiles json_data [f] subs =
        .ok (match firstMatchingBank json_data f with
          | some bank => ([], move_to_bank_folder subs bank f)
          | none => ([f], subs)) := by
  refine ⟨associateFile_ok json_data f h, ?_⟩
  intro subs
  rw [associateFiles, associateFile_ok json_data f h]
  cases firstMatchingBank json_data f with
  | some bank => simp [associateFiles]
  | none => simp [associateFiles]

/-- C3 witness: a concrete registry and file; the file matches `Chase` by
the account-ID-in-filename strategy and is moved into the `Chase`
subfolder. -/
theorem C3_witness :
    (associateFile [("Chase", ⟨"CHK1", [⟨"9988", "Savings"⟩]⟩)] ⟨"statement_9988.csv", .other⟩ =
      .ok (firstMatchingBank [("Chase", ⟨"CHK1", [⟨"9988", "Savings"⟩]⟩)]
        ⟨"statement_9988.csv", .other⟩)) ∧
    firstMatchingBank [("Chase", ⟨"CHK1", [⟨"9988", "Savings"⟩]⟩)]
      ⟨"statement_9988.csv", .other⟩ = some "Chase" :=
  ⟨(C3_bank_major_first_match _ _ (by decide)).1, by decide⟩

/-- C2: on the spec's scenario (registry with bank `Chase`, ID `CHK1`, one
account `9988`; input files `statement_9988.csv` and `random.csv`), the
categorizer does create `CSV_2` holding both files, but association then
lists the nonexistent helper folder `CSV` (not `CSV_2`) to recompute the
type-folder name, so the run aborts with `FileNotFoundError` instead of
producing `CSV_2/Chase_1` — the code crashes where the claim expects the
scenario to complete. -/
theorem C2_pipeline_crashes :
    categorize_files_by_type
        ⟨[⟨"statement_9988.csv", .csv [["x"]]⟩, ⟨"random.csv", .csv [["y"]]⟩], []⟩ =
      .ok (⟨[], [⟨"CSV_2",
          [⟨"statement_9988.csv", .csv [["x"]]⟩, ⟨"random.csv", .csv [["y"]]⟩], []⟩]⟩,
        [".csv"]) ∧
    main_pipeline
        ⟨[⟨"statement_9988.csv", .csv [["x"]]⟩, ⟨"random.csv", .csv [["y"]]⟩], []⟩
        [("Chase", ⟨"CHK1", [⟨"9988", "Savings"⟩]⟩)] =
      .error ("FileNotFoundError: CSV") :=
  ⟨by decide, by decide⟩

/-- C1 counterexample: with no type folder at all for extension `.csv`
(an empty base directory), association raises `FileNotFoundError` while
computing the type-folder name, instead of skipping the extension and
returning the directory unchanged. -/
theorem C1_counterexample :
    associate_files_with_sources ⟨[], []⟩ [".csv"] [] =
      .error ("FileNotFoundError: CSV") ∧
    (Except.error ("FileNotFoundError: CSV") : Except String BaseDir) ≠ .ok ⟨[], []⟩ :=
  ⟨by decide, by decide⟩

/-- C1 amended: the associator skips an extension and continues with the
next one only when the helper folder named by the uppercased extension
alone (no count) exists to supply the entry count while the re-derived
counted folder does not exist; when the helper folder itself is missing
(and the extension is nonempty), listing it raises an uncaught
`FileNotFoundError` and aborts the run. -/
theorem C1_skip_only_when_helper_exists :
    (∀ (json_data : Registry) (base : BaseDir) (ft : String) (rest : List String)
      (tf : TypeFolder),
      pyUpper (pyDrop1 ft) ≠ "" →
      findFolder base.folders (pyUpper (pyDrop1 ft)) = some tf →
      findFolder base.folders
        (pyUpper (pyDrop1 ft) ++ "_" ++ toString (tf.files.length + tf.subfolders.length)) =
        none →
      associate_files_with_sources base (ft :: rest) json_data =
        associate_files_with_sources base rest json_data) ∧
    (∀ (json_data : Registry) (base : BaseDir) (ft : String) (rest : List String),
      pyUpper (pyDrop1 ft) ≠ "" →
      findFolder base.folders (pyUpper (pyDrop1 ft)) = none →
      associate_files_with_sources base (ft :: rest) json_data =
        .error ("FileNotFoundError: " ++ pyUpper (pyDrop1 ft))) := by
  constructor
  · intro json_data base ft rest tf hext hhelper hmiss
    have hae : associateExt json_data base ft = .ok base := by
      simp only [associateExt, if_neg hext, hhelper, hmiss]
    rw [associate_files_with_sources, hae]
  · intro json_data base ft rest hext hhelper
    have hae : associateExt json_data base ft =
        .error ("FileNotFoundError: " ++ pyUpper (pyDrop1 ft)) := by
      simp only [associateExt, if_neg hext, hhelper]
    rw [associate_files_with_sources, hae]

/-- C1 witness: both branches of `C1_skip_only_when_helper_exists` hold at
concrete states: with a helper folder `CSV` of one entry and no `CSV_1`
folder, the extension is skipped; with no folder at all, the run aborts. -/
theorem C1_witness :
    (associate_files_with_sources ⟨[], [⟨"CSV", [⟨"x.csv", .other⟩], []⟩]⟩ [".csv"] [] =
      associate_files_with_sources ⟨[], [⟨"CSV", [⟨"x.csv", .other⟩], []⟩]⟩ [] []) ∧
    (associate_files_with_sources ⟨[], []⟩ [".pdf"] [] =
      .error ("FileNotFoundError: " ++ pyUpper (pyDrop1 ".pdf"))) :=
  ⟨C1_skip_only_when_helper_exists.1 [] ⟨[], [⟨"CSV", [⟨"x.csv", .other⟩], []⟩]⟩ ".csv" []
      ⟨"CSV", [⟨"x.csv", .other⟩], []⟩ (by decide) (by decide) (by decide),
    C1_skip_only_when_helper_exists.2 [] ⟨[], []⟩ ".pdf" [] (by decide) (by decide)⟩

/-- C8 counterexample: categorization of a folder holding `a.CSV` returns
the extension list `[".csv"]` — lowercased but with the leading dot kept,
not `"csv"` as the claim (dot stripped) states. -/
theorem C8_counterexample :
    categorize_files_by_type ⟨[⟨"a.CSV", .other⟩], []⟩ =
      .ok (⟨[], [⟨"CSV_1", [⟨"a.CSV", .other⟩], []⟩]⟩, [".csv"]) ∧
    (".csv" : String) ≠ "csv" :=
  ⟨by decide, by decide⟩

/-- C8 amended: a successful categorization returns the distinct observed
extensions in first-occurrence order, each being `file.suffix.lower()` —
lowercased with the leading dot kept (empty string for files without an
extension); the dot is stripped only later, when folder names are built. -/
theorem C8_returned_extensions (base : BaseDir) (pr : BaseDir × List String)
    (h : categorize_files_by_type base = .ok pr) :
    pr.2 = (buildInventory base.files).map Prod.fst ∧
    pr.2.Nodup ∧
    (∀ e ∈ pr.2, ∃ f ∈ base.files, e = pyLower (pySuffix f.name)) ∧
    (∀ f ∈ base.files, pyLower (pySuffix f.name) ∈ pr.2) := by
  have hkeys : pr.2 = (buildInventory base.files).map Prod.fst := by
    simp only [categorize_files_by_type] at h
    cases hpg : processGroups base.folders (buildInventory base.files) with
    | error e =>
      rw [hpg] at h
      exact absurd h (by simp)
    | ok fl =>
      rw [hpg] at h
      simp only [Except.ok.injEq] at h
      rw [← h]
  obtain ⟨ha, hb, hc, hd⟩ := buildInventory_invProp base.files
  refine ⟨hkeys, ?_, ?_, ?_⟩
  · rw [hkeys]
    exact ha
  · intro e he
    rw [hkeys] at he
    obtain ⟨p, hp, hpe⟩ := List.mem_map.mp he
    cases hq : p.2 with
    | nil => exact absurd hq (hd p hp)
    | cons f0 rest =>
      have hf0 : f0 ∈ p.2 := by
        rw [hq]
        exact List.mem_cons_self _ _
      rw [hb p hp, List.mem_filter] at hf0
      refine ⟨f0, hf0.1, ?_⟩
      have hk : extKey f0 = p.1 := by
        have hx := hf0.2
        simpa [beq_iff_eq] using hx
      rw [← hpe, ← hk]
      rfl
  · intro f hf
    rw [hkeys]
    exact hc f hf

/-- C8 witness: a concrete successful run with its returned extension
list, instantiating `C8_returned_extensions`. -/
theorem C8_witness :
    ([".csv", ""] :
        List String) = (buildInventory [⟨"a.CSV", .other⟩, ⟨"README", .other⟩]).map Prod.fst ∧
    ([".csv", ""] : List String).Nodup ∧
    (∀ e ∈ ([".csv", ""] : List String),
      ∃ f ∈ [(⟨"a.CSV", .other⟩ : FSFile), ⟨"README", .other⟩], e = pyLower (pySuffix f.name)) ∧
    (∀ f ∈ [(⟨"a.CSV", .other⟩ : FSFile), ⟨"README", .other⟩],
      pyLower (pySuffix f.name) ∈ ([".csv", ""] : List String)) :=
  C8_returned_extensions ⟨[⟨"a.CSV", .other⟩, ⟨"README", .other⟩], []⟩
    (⟨[], [⟨"CSV_1", [⟨"a.CSV", .other⟩], []⟩, ⟨"_1", [⟨"README", .other⟩], []⟩]⟩, [".csv", ""])
    (by decide)

/-- C4: after a successful categorization of a fresh directory, for every
observed extension (witnessed per file) there is a folder directly under
the directory named by the uppercased dotless extension, an underscore and
the count of files of that extension; the folder holds exactly those files
(so its numeric suffix equals the number of files in it at creation).
The freshness hypotheses delimit the modelled domain: distinct file names,
no pre-existing folder with a generated name, pairwise-distinct generated
names, and no plain file shadowing a generated folder path (the model
separates files from folders, while Python would silently clobber such a
file). -/
theorem C4_categorize_creates_counted_folders (base : BaseDir)
    (hnodup : ((base.files.map (fun f => f.name)).Nodup))
    (hfresh : ∀ p ∈ buildInventory base.files,
      findFolder base.folders (groupFolderName p) = none)
    (hinj : (((buildInventory base.files).map groupFolderName).Nodup))
    (_hnofileclash : ∀ p ∈ buildInventory base.files, ∀ f ∈ base.files,
      f.name ≠ groupFolderName p) :
    ∃ pr, categorize_files_by_type base = .ok pr ∧
      ∀ f ∈ base.files,
        ∃ tf ∈ pr.1.folders,
          tf.name = pyUpper (pyDrop1 (extKey f)) ++ "_" ++ toString tf.files.length ∧
          tf.files = base.files.filter (fun g => extKey g == extKey f) ∧
          f ∈ tf.files := by
  refine ⟨_, categorize_ok base hnodup hfresh hinj, ?_⟩
  intro f hf
  obtain ⟨ha, hb, hc, hd⟩ := buildInventory_invProp base.files
  obtain ⟨p, hp, hpk⟩ := List.mem_map.mp (hc f hf)
  refine ⟨⟨groupFolderName p, p.2, []⟩,
    List.mem_append_right _ (List.mem_map_of_mem _ hp), ?_, ?_, ?_⟩
  · have hlen : p.2 = base.files.filter (fun g => extKey g == extKey f) := by
      rw [hb p hp, hpk]
    simp only [groupFolderName, hpk]
  · rw [hb p hp, hpk]
  · rw [hb p hp, List.mem_filter]
    exact ⟨hf, by simp [hpk]⟩

/-- C4 witness: a concrete fresh directory with three files and two
extensions, instantiating `C4_categorize_creates_counted_folders`. -/
theorem C4_witness :
    ∃ pr, categorize_files_by_type
        ⟨[⟨"a.csv", .other⟩, ⟨"b.txt", .other⟩, ⟨"c.CSV", .other⟩], []⟩ = .ok pr ∧
      ∀ f ∈ [(⟨"a.csv", .other⟩ : FSFile), ⟨"b.txt", .other⟩, ⟨"c.CSV", .other⟩],
        ∃ tf ∈ pr.1.folders,
          tf.name = pyUpper (pyDrop1 (extKey f)) ++ "_" ++ toString tf.files.length ∧
          tf.files = [(⟨"a.csv", .other⟩ : FSFile), ⟨"b.txt", .other⟩,
            ⟨"c.CSV", .other⟩].filter (fun g => extKey g == extKey f) ∧
          f ∈ tf.files :=
  C4_categorize_creates_counted_folders
    ⟨[⟨"a.csv", .other⟩, ⟨"b.txt", .other⟩, ⟨"c.CSV", .other⟩], []⟩
    (by decide) (by decide) (by decide) (by decide)

/-- C10: files with no extension are grouped under the empty-string
extension key and moved into a folder whose name is an underscore followed
by the count of such files (an empty base name), rather than being skipped
or failing; same freshness hypotheses as C4. -/
theorem C10_empty_extension_grouped (base : BaseDir)
    (hnodup : ((base.files.map (fun f => f.name)).Nodup))
    (hfresh : ∀ p ∈ buildInventory base.files,
      findFolder base.folders (groupFolderName p) = none)
    (hinj : (((buildInventory base.files).map groupFolderName).Nodup))
    (_hnofileclash : ∀ p ∈ buildInventory base.files, ∀ f ∈ base.files,
      f.name ≠ groupFolderName p) :
    ∃ pr, categorize_files_by_type base = .ok pr ∧
      ∀ f ∈ base.files, pySuffix f.name = "" →
        (∃ grp, ("", grp) ∈ buildInventory base.files ∧ f ∈ grp) ∧
        ∃ tf ∈ pr.1.folders,
          tf.name = "_" ++
            toString ((base.files.filter (fun g => extKey g == "")).length) ∧
          f ∈ tf.files := by
  refine ⟨_, categorize_ok base hnodup hfresh hinj, ?_⟩
  intro f hf hsuf
  obtain ⟨ha, hb, hc, hd⟩ := buildInventory_invProp base.files
  have hkey : extKey f = "" := by
    rw [extKey, hsuf]
    rfl
  obtain ⟨p, hp, hpk⟩ := List.mem_map.mp (hc f hf)
  have hp1 : p.1 = "" := by rw [hpk, hkey]
  have hfilter : p.2 = base.files.filter (fun g => extKey g == "") := by
    rw [hb p hp, hp1]
  have hmemf : f ∈ p.2 := by
    rw [hfilter, List.mem_filter]
    exact ⟨hf, by simp [hkey]⟩
  constructor
  · refine ⟨p.2, ?_, hmemf⟩
    have hpp : p = ("", p.2) := by
      cases p with
      | mk k g => simp only at hp1 ⊢; rw [hp1]
    rw [← hpp]
    exact hp
  · refine ⟨⟨groupFolderName p, p.2, []⟩,
      List.mem_append_right _ (List.mem_map_of_mem _ hp), ?_, hmemf⟩
    have hup : pyUpper (pyDrop1 ("" : String)) ++ "_" = "_" := by decide
    simp only [groupFolderName, hp1, hup, hfilter]

/-- C10 witness: two extensionless files end up grouped under the empty
key and moved into folder `_2`, instantiating
`C10_empty_extension_grouped`. -/
theorem C10_witness :
    ∃ pr, categorize_files_by_type ⟨[⟨"README", .other⟩, ⟨"LICENSE", .other⟩], []⟩ = .ok pr ∧
      ∀ f ∈ [(⟨"README", .other⟩ : FSFile), ⟨"LICENSE", .other⟩], pySuffix f.name = "" →
        (∃ grp, ("", grp) ∈ buildInventory [(⟨"README", .other⟩ : FSFile), ⟨"LICENSE", .other⟩] ∧
          f ∈ grp) ∧
        ∃ tf ∈ pr.1.folders,
          tf.name = "_" ++
            toString (([(⟨"README", .other⟩ : FSFile),
              ⟨"LICENSE", .other⟩].filter (fun g => extKey g == "")).length) ∧
          f ∈ tf.files :=
  C10_empty_extension_grouped ⟨[⟨"README", .other⟩, ⟨"LICENSE", .other⟩], []⟩
    (by decide) (by decide) (by decide) (by decide)
